import Mathlib

/-!
Verification of the log-window aggregation and weighted-statistics engine of
the unipept-utilities repository: the daily collector (processCommand,
processEndpoints, processNodes, processSources) and the live exporter
(processCommand, processCommandWithInput, filterRecentLogLines,
avgLatencyByNodeFromRecent, countRequestsByNode, sendToGraphite, main).

Strings are modelled as lists of characters, JavaScript numbers as
`Option Rat` where `none` stands for any non-finite value (NaN or an
infinity) and finite arithmetic is idealised as exact rational arithmetic.
-/

namespace UnipeptUtilities

/-- Model of a JavaScript number: `some q` is a finite value, `none` is any
non-finite value (NaN or an infinity). -/
abbrev JsNum := Option ℚ

/-- Addition of JavaScript numbers: a non-finite operand gives a non-finite
result. -/
def jsAdd : JsNum → JsNum → JsNum
  | some a, some b => some (a + b)
  | _, _ => none

/-- Subtraction of JavaScript numbers. -/
def jsSub : JsNum → JsNum → JsNum
  | some a, some b => some (a - b)
  | _, _ => none

/-- Multiplication of JavaScript numbers. -/
def jsMul : JsNum → JsNum → JsNum
  | some a, some b => some (a * b)
  | _, _ => none

/-- Division of JavaScript numbers: a zero divisor gives a non-finite result
(NaN or an infinity in JavaScript), as does any non-finite operand. -/
def jsDiv : JsNum → JsNum → JsNum
  | some a, some b => if b = 0 then none else some (a / b)
  | _, _ => none

/-- Splitting a character list on a separator character, mirroring the
JavaScript String.prototype.split with a one-character separator: empty
segments are kept and the empty string splits to one empty segment. -/
def splitOnChar (sep : Char) : List Char → List (List Char)
  | [] => [[]]
  | c :: rest =>
    if c = sep then [] :: splitOnChar sep rest
    else
      match splitOnChar sep rest with
      | [] => [[c]]
      | s :: ss => (c :: s) :: ss

/-- Boolean test that the first list is a leading segment of the second. -/
def isPrefixB : List Char → List Char → Bool
  | [], _ => true
  | _ :: _, [] => false
  | a :: as, b :: bs => a == b && isPrefixB as bs

/-- Boolean substring test on character lists, mirroring the JavaScript
String.prototype.includes. -/
def containsSub : List Char → List Char → Bool
  | [], needle => isPrefixB needle []
  | c :: rest, needle => isPrefixB needle (c :: rest) || containsSub rest needle

/-- Replace the first occurrence of `pat` by `rep`, mirroring the JavaScript
String.prototype.replace with a string pattern (first occurrence only). -/
def replaceFirst : List Char → List Char → List Char → List Char
  | [], pat, rep => if isPrefixB pat [] then rep else []
  | c :: rest, pat, rep =>
    if isPrefixB pat (c :: rest) then rep ++ (c :: rest).drop pat.length
    else c :: replaceFirst rest pat rep

/-- The JavaScript String.prototype.trimEnd: remove trailing whitespace. -/
def trimEndWs (s : List Char) : List Char :=
  (s.reverse.dropWhile Char.isWhitespace).reverse

/-- Numeric value of a list of decimal digit characters. -/
def natOfDigits (ds : List Char) : ℕ :=
  ds.foldl (fun n c => 10 * n + (c.toNat - 48)) 0

/-- Number.parseInt with radix 10 on the decimal subset occurring in the halog
fields handled by these scripts: the longest leading run of decimal digits;
when there is none the result is NaN (`none`). Sign and whitespace prefixes do
not occur in the parsed fields and are not modelled. -/
def jsParseInt (s : List Char) : JsNum :=
  let d := s.takeWhile Char.isDigit
  if d = [] then none else some (natOfDigits d : ℚ)

/-- Number.parseFloat on the decimal subset occurring in the halog fields
handled by these scripts: a longest leading prefix of the form
digits, optionally followed by a point and further digits; anything else is
NaN (`none`). -/
def jsParseFloat (s : List Char) : JsNum :=
  let intPart := s.takeWhile Char.isDigit
  let rest := s.dropWhile Char.isDigit
  if intPart = [] then none
  else
    let fracPart :=
      match rest with
      | '.' :: r => r.takeWhile Char.isDigit
      | _ => []
    some ((natOfDigits intPart : ℚ) + (natOfDigits fracPart : ℚ) / ((10 : ℚ) ^ fracPart.length))

/-- Field access `fields[i]` followed by Number.parseInt: a missing field is
undefined in JavaScript and parseInt of undefined is NaN. -/
def jsParseIntAt (fields : List (List Char)) (i : ℕ) : JsNum :=
  match fields.get? i with
  | some f => jsParseInt f
  | none => none

/-- Field access `fields[i]` followed by Number.parseFloat; a missing field
parses to NaN. -/
def jsParseFloatAt (fields : List (List Char)) (i : ℕ) : JsNum :=
  match fields.get? i with
  | some f => jsParseFloat f
  | none => none

/-- Lookup in an insertion-ordered association list, the model of a JavaScript
Map. -/
def lookupKey {β : Type} : List (List Char × β) → List Char → Option β
  | [], _ => none
  | (k, v) :: rest, key => if k = key then some v else lookupKey rest key

/-- Update or append in an insertion-ordered association list, the model of
Map.prototype.set: an existing key keeps its position, a new key is appended. -/
def setKey {β : Type} : List (List Char × β) → List Char → β → List (List Char × β)
  | [], key, val => [(key, val)]
  | (k, v) :: rest, key, val =>
    if k = key then (key, val) :: rest else (k, v) :: setKey rest key val

/-- The per-key accumulator of processEndpoints and processNodes in the daily
collector (part_002): total request count, bad request count and average time,
each a JavaScript number. -/
structure EndpointStat where
  totalReqCount : JsNum
  badReqCount : JsNum
  avgTime : JsNum
deriving DecidableEq

/-- The merge performed by processEndpoints when a key recurs (part_002 lines
94 to 101; processNodes lines 174 to 181 are identical): the freshly parsed row
is currentStat and the map entry is the old value. Totals and bad counts are
added. The average numerator is thisAvg times thisTotal plus oldAvg times
oldTotal, but the denominator reads currentStat.totalReqCount AFTER it has
already been updated to thisTotal plus oldTotal and then adds the old total
once more, giving thisTotal plus twice oldTotal. -/
def foldEndpointStat (row old : EndpointStat) : EndpointStat :=
  let newTotal := jsAdd row.totalReqCount old.totalReqCount
  let newBad := jsAdd row.badReqCount old.badReqCount
  let newAvg :=
    jsDiv (jsAdd (jsMul row.avgTime row.totalReqCount) (jsMul old.avgTime old.totalReqCount))
      (jsAdd newTotal old.totalReqCount)
  ⟨newTotal, newBad, newAvg⟩

/-- The endpoint filter list of processEndpoints (part_002 line 72). -/
def acceptedEndpoints : List (List Char) :=
  ["/mpa".toList, "/private_api".toList, "/api".toList]

/-- The endpoint normalisation of processEndpoints (part_002 lines 82 to 85):
strip the https and then the http host prefix, then replace one double slash,
each via String.prototype.replace, which replaces the first occurrence only. -/
def endpointTransform (e : List Char) : List Char :=
  replaceFirst
    (replaceFirst (replaceFirst e ("https://api.unipept.ugent.be".toList) [])
      ("http://api.unipept.ugent.be".toList) [])
    ("//".toList) ("/".toList)

/-- The aggregation loop of processEndpoints (part_002 lines 74 to 105): split
each line on a single space, parse the count fields at positions 0 and 1 and
the average at position 3, normalise the endpoint at position 8, keep rows
whose endpoint contains an accepted fragment, and fold recurring keys with
foldEndpointStat. There is no finite-number guard, so NaN values flow into the
accumulator. A line with fewer than nine fields makes `fields[8]` undefined and
the replace call on it throws, aborting the whole batch; that is the
`Except.error ()` case. -/
def processEndpointsLoop :
    List (List Char) → List (List Char × EndpointStat) →
    Except Unit (List (List Char × EndpointStat))
  | [], stats => Except.ok stats
  | line :: rest, stats =>
    let fields := splitOnChar ' ' line
    let totalReqCount := jsParseIntAt fields 0
    let badReqCount := jsParseIntAt fields 1
    let avgTime := jsParseFloatAt fields 3
    match fields.get? 8 with
    | none => Except.error ()
    | some rawEndpoint =>
      let endpoint := endpointTransform rawEndpoint
      if acceptedEndpoints.any (fun v => containsSub endpoint v) then
        let merged :=
          match lookupKey stats endpoint with
          | some old => foldEndpointStat ⟨totalReqCount, badReqCount, avgTime⟩ old
          | none => (⟨totalReqCount, badReqCount, avgTime⟩ : EndpointStat)
        processEndpointsLoop rest (setKey stats endpoint merged)
      else
        processEndpointsLoop rest stats

/-- The batch aggregation of processEndpoints, started on an empty map. -/
def processEndpointsAgg (lines : List (List Char)) :
    Except Unit (List (List Char × EndpointStat)) :=
  processEndpointsLoop lines []

/-- The key transform shared by avgLatencyByNodeFromRecent (halog-live lines
175 to 176) and countRequestsByNode (lines 223 to 224): split the raw server
name on the slash and take the element at index 1 when the split produced more
than one part, otherwise keep the whole name. -/
def nodeKeyOf (serverName : List Char) : List Char :=
  match splitOnChar '/' serverName with
  | _ :: second :: _ => second
  | _ => serverName

/-- The key transform of processNodes in the daily collector (part_002 line
161): split the raw server name on the slash and index the element at
position 1 with NO fallback, so a separator-free name yields undefined,
modelled as none. -/
def nodeKeyOfCollector (serverName : List Char) : Option (List Char) :=
  (splitOnChar '/' serverName).get? 1

/-- Stated from the words of the specification, for comparison with the code:
the substring after the LAST path-style separator, or the whole string when no
separator is present. -/
def lastSegmentOfSpec (s : List Char) : List Char :=
  (splitOnChar '/' s).getLastD s

/-- The per-node accumulator of avgLatencyByNodeFromRecent (halog-live line
183). -/
structure NodeAcc where
  total : ℚ
  weightedSum : ℚ
deriving DecidableEq

/-- The per-row accumulation of avgLatencyByNodeFromRecent (lines 186 to 187):
add the row count to the total and the product of the row average and the row
count to the weighted sum. -/
def foldNodeAcc (acc : NodeAcc) (totalReqCount avgTime : ℚ) : NodeAcc :=
  ⟨acc.total + totalReqCount, acc.weightedSum + avgTime * totalReqCount⟩

/-- The aggregation loop of avgLatencyByNodeFromRecent (lines 169 to 188):
skip empty lines, split on a single space, take the server name at position 0
(skipped when empty), derive the node key, parse the count at position 7 and
the average at position 11, skip the row unless both are finite, and fold into
the per-node accumulator. -/
def avgLatencyLoop :
    List (List Char) → List (List Char × NodeAcc) → List (List Char × NodeAcc)
  | [], stats => stats
  | line :: rest, stats =>
    if line = [] then avgLatencyLoop rest stats
    else
      let fields := splitOnChar ' ' line
      match fields.get? 0 with
      | none => avgLatencyLoop rest stats
      | some serverName =>
        if serverName = [] then avgLatencyLoop rest stats
        else
          let node := nodeKeyOf serverName
          match jsParseIntAt fields 7, jsParseFloatAt fields 11 with
          | some t, some a =>
            let acc := (lookupKey stats node).getD ⟨0, 0⟩
            avgLatencyLoop rest (setKey stats node (foldNodeAcc acc t a))
          | _, _ => avgLatencyLoop rest stats

/-- The accumulator map built by avgLatencyByNodeFromRecent. -/
def avgLatencyStats (lines : List (List Char)) : List (List Char × NodeAcc) :=
  avgLatencyLoop lines []

/-- The final conversion of avgLatencyByNodeFromRecent (lines 190 to 197): a
node is reported only when its accumulated total is strictly positive, and its
reported value is the weighted sum divided by the total. -/
def avgLatencyByNode (lines : List (List Char)) : List (List Char × ℚ) :=
  (avgLatencyStats lines).filterMap fun p =>
    if 0 < p.2.total then some (p.1, p.2.weightedSum / p.2.total) else none

/-- The user-agent class enumeration of processSources (part_002). -/
inductive UaSource
  | desktop
  | cli
  | web
  | other
deriving DecidableEq

/-- Lower-casing of a user agent, the model of String.prototype.toLowerCase on
the ASCII range. -/
def uaLower (s : List Char) : List Char := s.map Char.toLower

/-- The browser test of processSources (part_002 lines 220 to 230): each
case-insensitive regular expression is an alternation of plain words, so a
match is exactly a case-insensitive substring test against any alternative. -/
def matchesBrowser (userAgent : List Char) : Bool :=
  [["chrome".toList, "chromium".toList, "crios".toList],
   ["firefox".toList, "fxios".toList],
   ["safari".toList],
   ["opr".toList],
   ["edg".toList]].any fun t => t.any fun pat => containsSub (uaLower userAgent) pat

/-- The classification chain of processSources (part_002 lines 240 to 248):
desktop, then cli, then browser, then other. -/
def classify (userAgent : List Char) : UaSource :=
  if containsSub (uaLower userAgent) ("unipeptdesktop".toList) then UaSource.desktop
  else if containsSub (uaLower userAgent) ("unipept cli".toList) then UaSource.cli
  else if matchesBrowser userAgent then UaSource.web
  else UaSource.other

/-- processCommand (halog-live lines 33 to 53; the collector version in
part_002 lines 32 to 51 differs only by a guard that does not change the
result): split stdout on the newline, drop the first segment (the header),
trim the end of every remaining segment, then remove the last element of the
resulting array. -/
def processCommand (stdout : List Char) : List (List Char) :=
  let lines := ((splitOnChar '\n' stdout).drop 1).map trimEndWs
  if lines = [] then lines else lines.dropLast

/-- processCommandWithInput (halog-live lines 56 to 78): as processCommand,
but a segment that is empty after trimming is not pushed. -/
def processCommandWithInput (stdout : List Char) : List (List Char) :=
  let lines := (((splitOnChar '\n' stdout).drop 1).map trimEndWs).filter fun l => !l.isEmpty
  if lines = [] then lines else lines.dropLast

/-- A row of the relational sink table endpoint_stats. -/
structure DatedRow where
  date : ℤ
  groupKey : List Char
  reqSuccessful : JsNum
  reqError : JsNum
  avgDuration : JsNum
deriving DecidableEq

/-- The statements the collector sends to its relational sink: the literal
text `DROP FROM endpoint_stats WHERE date = SUBDATE(CURDATE(), 1)` that
part_002 issues, the well-formed DELETE FROM counterpart, and an INSERT. -/
inductive SqlStmt
  | dropFromWhereDate (date : ℤ)
  | deleteFromWhereDate (date : ℤ)
  | insertRow (row : DatedRow)

/-- Model of the external MySQL collaborator on the statements above. DELETE
FROM removes every row matching the date and INSERT appends one row. The text
`DROP FROM <table> WHERE ...` is not a statement of the MySQL grammar (DROP
takes TABLE, DATABASE or INDEX), so the server rejects it and the table is
unchanged; the second component records that the statement errored. -/
def execStmt : SqlStmt → List DatedRow → List DatedRow × Bool
  | SqlStmt.dropFromWhereDate _, t => (t, true)
  | SqlStmt.deleteFromWhereDate d, t => (t.filter fun r => !(r.date == d), false)
  | SqlStmt.insertRow r, t => (t ++ [r], false)

/-- The sink phase of processEndpoints (part_002 lines 107 to 124): issue the
literal DROP FROM text for the date, then one INSERT per aggregated key with
values date, endpoint, total minus bad, bad, average. -/
def endpointSinkWrite (date : ℤ) (stats : List (List Char × EndpointStat))
    (table : List DatedRow) : List DatedRow :=
  let t1 := (execStmt (SqlStmt.dropFromWhereDate date) table).1
  stats.foldl
    (fun acc p =>
      (execStmt (SqlStmt.insertRow
        { date := date
          groupKey := p.1
          reqSuccessful := jsSub p.2.totalReqCount p.2.badReqCount
          reqError := p.2.badReqCount
          avgDuration := p.2.avgTime }) acc).1)
    t1

/-- Modelled from the spec: the replace-day write as specified in section 4.5,
delete all existing rows for the date and then insert one row per key. It is
endpointSinkWrite with the delete statement well-formed. -/
def replaceDaySpec (date : ℤ) (stats : List (List Char × EndpointStat))
    (table : List DatedRow) : List DatedRow :=
  let t1 := (execStmt (SqlStmt.deleteFromWhereDate date) table).1
  stats.foldl
    (fun acc p =>
      (execStmt (SqlStmt.insertRow
        { date := date
          groupKey := p.1
          reqSuccessful := jsSub p.2.totalReqCount p.2.badReqCount
          reqError := p.2.badReqCount
          avgDuration := p.2.avgTime }) acc).1)
    t1

/-- Outcome of one publish step of the live exporter. -/
structure PublishRun where
  connectionsOpened : ℕ
  exitCode : ℕ
  fatalError : Bool
deriving DecidableEq

/-- Outcome of the socket interaction of one sendToGraphite call. -/
inductive NetResult
  | ok
  | connectError

/-- Model of sendToGraphite (halog-live lines 235 to 266): every invocation
opens exactly one socket connection; the returned promise resolves when the
socket closes and rejects when a connection or write error is raised. The
first component counts connections opened, the second is the promise result. -/
def sendToGraphite (net : NetResult) : ℕ × Except Unit Unit :=
  (1, match net with
      | NetResult.ok => Except.ok ()
      | NetResult.connectError => Except.error ())

/-- Model of the publish step of main (halog-live lines 322 to 333): an empty
metric list returns before any connection is opened, with the process exit
code untouched at zero; otherwise sendToGraphite is awaited inside a try
block, and a rejection is logged and sets exit code 1 without rethrowing, so
no fatal unhandled error is ever raised. -/
def mainPublish (metrics : List (List Char × ℚ)) (net : NetResult) : PublishRun :=
  if metrics.length = 0 then ⟨0, 0, false⟩
  else
    match (sendToGraphite net).2 with
    | Except.ok _ => ⟨(sendToGraphite net).1, 0, false⟩
    | Except.error _ => ⟨(sendToGraphite net).1, 1, false⟩

/-- filterRecentLogLines (halog-live lines 119 to 143): split the log content
on the newline, skip empty lines, parse a timestamp from each line, drop the
line when no timestamp parses, and keep it exactly when the parsed instant is
at or after now minus the window in milliseconds. The argument parseTs stands
for parseSyslogTimestampToDate composed with the whitespace split of the line;
it yields the parsed instant in milliseconds since the epoch, or none when the
line has no parsable ISO-8601 timestamp. The source joins the kept lines back
with newlines; the model returns the kept lines. -/
def filterRecentLogLines (parseTs : List Char → Option ℤ) (windowSeconds now : ℤ)
    (content : List Char) : List (List Char) :=
  let cutoff := now - windowSeconds * 1000
  (splitOnChar '\n' content).filter fun line =>
    if line = [] then false
    else
      match parseTs line with
      | none => false
      | some t => decide (cutoff ≤ t)

/-- A small concrete timestamp parser used to instantiate the window-filter
theorem at concrete inputs. -/
def parseTsExample (line : List Char) : Option ℤ :=
  if line = "a 5000".toList then some 5000
  else if line = "b 100".toList then some 100
  else none

theorem splitOnChar_of_not_mem (sep : Char) (s : List Char) (h : sep ∉ s) :
    splitOnChar sep s = [s] := by
  induction s with
  | nil => rfl
  | cons c rest ih =>
    have hc : ¬ c = sep := fun hcs => h (hcs ▸ List.mem_cons_self c rest)
    have hr : sep ∉ rest := fun hm => h (List.mem_cons_of_mem _ hm)
    simp only [splitOnChar, if_neg hc, ih hr]

theorem splitOnChar_append (sep : Char) (p r : List Char) (h : sep ∉ p) :
    splitOnChar sep (p ++ sep :: r) = p :: splitOnChar sep r := by
  induction p with
  | nil => simp [splitOnChar]
  | cons c p' ih =>
    have hc : ¬ c = sep := fun hcs => h (hcs ▸ List.mem_cons_self c p')
    have hp : sep ∉ p' := fun hm => h (List.mem_cons_of_mem _ hm)
    simp only [List.cons_append, splitOnChar, if_neg hc, List.append_eq, ih hp]

/-- C1: the claim states that folding a new observation into an existing
accumulator yields the count-weighted mean, with folding count 10 average 2.0
and then count 10 average 4.0 giving total 20 and average 3.0. The live
exporter fold does give average 3, but the daily collector fold gives average
2, because the merge denominator in processEndpoints reads the already-updated
total and hence is thisTotal plus twice oldTotal: (4*10 + 2*10) / (20 + 10). -/
theorem c1_weighted_merge_evaluation :
    processEndpointsAgg
        ["10 2 x 2.0 a b c d /api/pept".toList,
         "10 2 x 4.0 a b c d /api/pept".toList] =
      Except.ok [("/api/pept".toList, ⟨some 20, some 4, some 2⟩)] ∧
    avgLatencyByNode
        ["all_handlers/selma b c d e f g 10 i j k 2.0".toList,
         "all_handlers/selma b c d e f g 10 i j k 4.0".toList] =
      [("selma".toList, 3)] ∧
    (2 : ℚ) ≠ 3 :=
  ⟨by with_unfolding_all rfl, by with_unfolding_all rfl, by norm_num⟩

/-- C2: the claim states that folding an observation with count 0 leaves the
accumulator unchanged and that no division by zero occurs. In the daily
collector, folding count 0 average 7 into the accumulator with total 10, bad 2
and average 4 keeps the totals but halves the average to 2, and folding into
an accumulator whose total is 0 divides zero by zero, a non-finite NaN result.
The live exporter accumulator is genuinely unchanged by a count-0 fold. -/
theorem c2_zero_count_fold_evaluation :
    foldEndpointStat ⟨some 0, some 0, some 7⟩ ⟨some 10, some 2, some 4⟩ =
      ⟨some 10, some 2, some 2⟩ ∧
    (some (2 : ℚ) : JsNum) ≠ some 4 ∧
    (foldEndpointStat ⟨some 0, some 0, some 7⟩ ⟨some 0, some 0, some 5⟩).avgTime = none ∧
    (∀ (acc : NodeAcc) (x : ℚ), foldNodeAcc acc 0 x = acc) := by
  refine ⟨by with_unfolding_all rfl, by norm_num, by with_unfolding_all rfl, ?_⟩
  intro acc x
  cases acc
  simp [foldNodeAcc]

/-- C3: a line of filterRecentLogLines whose timestamp parses to the instant t
appears in the output exactly when it is a line of the input and t is at or
after now minus the window in milliseconds (the tie included), and a line with
no parsable timestamp is never in the output. -/
theorem c3_window_filter (parseTs : List Char → Option ℤ) (windowSeconds now t : ℤ)
    (content : List Char) (line : List Char) :
    (line ≠ [] → parseTs line = some t →
      (line ∈ filterRecentLogLines parseTs windowSeconds now content ↔
        (line ∈ splitOnChar '\n' content ∧ now - windowSeconds * 1000 ≤ t))) ∧
    (parseTs line = none →
      line ∉ filterRecentLogLines parseTs windowSeconds now content) := by
  constructor
  · intro hne hp
    simp [filterRecentLogLines, List.mem_filter, hp, hne]
  · intro hp
    simp [filterRecentLogLines, List.mem_filter, hp]

/-- C3 witness: with the concrete parser parseTsExample, window 1 second and
reference instant 6000 milliseconds, the line at the tie instant 5000 is kept
and the unparsable line is dropped. -/
theorem c3_window_filter_witness :
    ("a 5000".toList ∈
      filterRecentLogLines parseTsExample 1 6000 ("a 5000\nb 100\njunk".toList)) ∧
    ("junk".toList ∉
      filterRecentLogLines parseTsExample 1 6000 ("a 5000\nb 100\njunk".toList)) := by
  constructor
  · exact ((c3_window_filter parseTsExample 1 6000 5000
      ("a 5000\nb 100\njunk".toList) ("a 5000".toList)).1 (by decide) (by decide)).mpr
      ⟨by decide, by decide⟩
  · exact (c3_window_filter parseTsExample 1 6000 0
      ("a 5000\nb 100\njunk".toList) ("junk".toList)).2 (by decide)

/-- C4 counterexample: the claim states the aggregation key is the substring
after the LAST path-style separator, the whole string when no separator is
present, and that selma maps to selma. On the raw key a/b/c both cited code
paths take b, the second slash-separated segment, while the last segment is c;
and on the separator-free key selma the collector transform of processNodes
indexes the split at position 1 without a fallback and yields undefined, not
selma. -/
theorem c4_counterexample :
    nodeKeyOf ("a/b/c".toList) = "b".toList ∧
    nodeKeyOfCollector ("a/b/c".toList) = some ("b".toList) ∧
    lastSegmentOfSpec ("a/b/c".toList) = "c".toList ∧
    nodeKeyOf ("a/b/c".toList) ≠ lastSegmentOfSpec ("a/b/c".toList) ∧
    nodeKeyOfCollector ("selma".toList) = none := by
  decide

/-- C4 amended: when at least one separator is present, the aggregation key is
the second slash-separated segment of the raw key, that is the substring after
the FIRST separator up to the next separator, in both the live exporter and
the daily collector; when no separator is present, the live exporter keeps the
whole string while the collector transform of processNodes produces no key
(undefined, modelled as none). -/
theorem c4_amended :
    (∀ s : List Char, '/' ∉ s →
      nodeKeyOf s = s ∧ nodeKeyOfCollector s = none) ∧
    (∀ p r : List Char, '/' ∉ p → '/' ∉ r →
      nodeKeyOf (p ++ '/' :: r) = r ∧ nodeKeyOfCollector (p ++ '/' :: r) = some r) ∧
    (∀ p r q : List Char, '/' ∉ p → '/' ∉ r →
      nodeKeyOf (p ++ '/' :: (r ++ '/' :: q)) = r ∧
      nodeKeyOfCollector (p ++ '/' :: (r ++ '/' :: q)) = some r) := by
  refine ⟨?_, ?_, ?_⟩
  · intro s hs
    unfold nodeKeyOf nodeKeyOfCollector
    rw [splitOnChar_of_not_mem _ _ hs]
    exact ⟨rfl, rfl⟩
  · intro p r hp hr
    unfold nodeKeyOf nodeKeyOfCollector
    rw [splitOnChar_append _ _ _ hp, splitOnChar_of_not_mem _ _ hr]
    exact ⟨rfl, rfl⟩
  · intro p r q hp hr
    unfold nodeKeyOf nodeKeyOfCollector
    rw [splitOnChar_append _ _ _ hp, splitOnChar_append _ _ _ hr]
    exact ⟨rfl, rfl⟩

/-- C4 witness: both transforms map all_handlers/selma to selma; on the
separator-free selma the live exporter keeps selma while the collector
transform yields none. -/
theorem c4_amended_witness :
    nodeKeyOf ("all_handlers/selma".toList) = "selma".toList ∧
    nodeKeyOfCollector ("all_handlers/selma".toList) = some ("selma".toList) ∧
    nodeKeyOf ("selma".toList) = "selma".toList ∧
    nodeKeyOfCollector ("selma".toList) = none := by
  have e : "all_handlers".toList ++ '/' :: "selma".toList = "all_handlers/selma".toList := by
    decide
  have h := c4_amended.2.1 ("all_handlers".toList) ("selma".toList) (by decide) (by decide)
  rw [e] at h
  have h0 := c4_amended.1 ("selma".toList) (by decide)
  exact ⟨h.1, h.2, h0.1, h0.2⟩

/-- C5 counterexample: the claim states that unipept-cli/0.9 classifies as
cli; the code tests for the substring with a space, unipept cli, which the
hyphenated agent does not contain, and no browser token matches either, so the
code classifies it as other. -/
theorem c5_counterexample :
    classify ("unipept-cli/0.9".toList) = UaSource.other ∧
    UaSource.other ≠ UaSource.cli := by
  decide

/-- C5 amended: classify decides by case-insensitive substring tests in order:
a user agent containing unipeptdesktop is desktop even when it also matches a
browser pattern; otherwise one containing unipept cli (with a space) is cli;
otherwise one matching a browser pattern is web; otherwise it is other. -/
theorem c5_amended :
    (∀ ua : List Char,
      containsSub (uaLower ua) ("unipeptdesktop".toList) = true →
      classify ua = UaSource.desktop) ∧
    (∀ ua : List Char,
      containsSub (uaLower ua) ("unipeptdesktop".toList) = false →
      containsSub (uaLower ua) ("unipept cli".toList) = true →
      classify ua = UaSource.cli) ∧
    (∀ ua : List Char,
      containsSub (uaLower ua) ("unipeptdesktop".toList) = false →
      containsSub (uaLower ua) ("unipept cli".toList) = false →
      matchesBrowser ua = true →
      classify ua = UaSource.web) ∧
    (∀ ua : List Char,
      containsSub (uaLower ua) ("unipeptdesktop".toList) = false →
      containsSub (uaLower ua) ("unipept cli".toList) = false →
      matchesBrowser ua = false →
      classify ua = UaSource.other) := by
  refine ⟨?_, ?_, ?_, ?_⟩ <;> intro ua <;> intros <;> simp_all [classify]

/-- C5 witness: the four classes on concrete user agents, including a desktop
agent that also contains browser tokens and is still classified desktop. -/
theorem c5_amended_witness :
    classify ("Mozilla/5.0 (Macintosh) Chrome/118 Safari/537.36 UnipeptDesktop/1.2".toList) =
      UaSource.desktop ∧
    classify ("Unipept CLI/0.9".toList) = UaSource.cli ∧
    classify ("Mozilla/5.0 (X11) Chrome/118 Safari/537.36".toList) = UaSource.web ∧
    classify ("curl/8.0".toList) = UaSource.other :=
  ⟨c5_amended.1 _ (by decide),
   c5_amended.2.1 _ (by decide) (by decide),
   c5_amended.2.2.1 _ (by decide) (by decide) (by decide),
   c5_amended.2.2.2 _ (by decide) (by decide) (by decide)⟩

/-- C6: the claim states a row with a non-parsable count or average is skipped
with every other row unaffected and never fails the batch. In the daily
collector a row whose average field does not parse is NOT skipped: its count
is folded in and its NaN average poisons the accumulator of its key, and a row
with fewer than nine fields aborts the whole batch. The live exporter does
skip such a row, leaving the remaining rows to aggregate normally. -/
theorem c6_malformed_row_evaluation :
    processEndpointsAgg
        ["10 2 x abc a b c d /api/pept".toList,
         "10 2 x 4.0 a b c d /api/pept".toList] =
      Except.ok [("/api/pept".toList, ⟨some 20, some 4, none⟩)] ∧
    processEndpointsAgg ["10 2 x 4.0 /api".toList] = Except.error () ∧
    avgLatencyByNode
        ["all_handlers/selma b c d e f g 10 i j k abc".toList,
         "all_handlers/selma b c d e f g 10 i j k 4.0".toList] =
      [("selma".toList, 4)] :=
  ⟨by with_unfolding_all rfl, by with_unfolding_all rfl, by with_unfolding_all rfl⟩

/-- C7: the claim states the replace-day write deletes the rows of the date
and then inserts, so that running it twice leaves one row per key. The
collector issues the text DROP FROM, which the SQL server rejects, so nothing
is deleted and the second run leaves two rows for the same date and key; the
delete-then-insert write stated by the specification leaves one. -/
theorem c7_replace_day_evaluation :
    (endpointSinkWrite 0 [("/api".toList, ⟨some 10, some 2, some 3⟩)]
        (endpointSinkWrite 0 [("/api".toList, ⟨some 10, some 2, some 3⟩)] [])).countP
      (fun r => r.date == 0 && r.groupKey == "/api".toList) = 2 ∧
    (replaceDaySpec 0 [("/api".toList, ⟨some 10, some 2, some 3⟩)]
        (replaceDaySpec 0 [("/api".toList, ⟨some 10, some 2, some 3⟩)] [])).countP
      (fun r => r.date == 0 && r.groupKey == "/api".toList) = 1 ∧
    (2 : ℕ) ≠ 1 :=
  ⟨rfl, rfl, by decide⟩

/-- C8: the claim states processCommand and processCommandWithInput return
exactly the data lines of a newline-terminated header, data, status output. On
header newline data1 newline status newline, the split produces a final empty
segment, so processCommand removes that empty segment instead of the status
line and returns the status line among the data; processCommandWithInput
filters the empty segment out first and does return exactly the data lines. -/
theorem c8_strip_evaluation :
    processCommand ("header\ndata1\nstatus\n".toList) =
      ["data1".toList, "status".toList] ∧
    processCommandWithInput ("header\ndata1\nstatus\n".toList) = ["data1".toList] :=
  ⟨rfl, rfl⟩

/-- C9: the publish step of main opens no connection and leaves the exit code
at zero on an empty record set, and a connection or write failure never
becomes a fatal error: every run, for any metric list and any network outcome,
terminates without a fatal unhandled error. -/
theorem c9_publish_contract :
    (∀ net : NetResult, mainPublish [] net = ⟨0, 0, false⟩) ∧
    (∀ (metrics : List (List Char × ℚ)) (net : NetResult),
      (mainPublish metrics net).fatalError = false) := by
  constructor
  · intro net
    rfl
  · intro metrics net
    by_cases h : metrics.length = 0 <;>
      cases net <;> simp [mainPublish, sendToGraphite, h]

/-- C10: every association reported by avgLatencyByNode comes from an
accumulator whose total is strictly positive, and the reported value is the
weighted sum divided by that positive total, so the division is never by zero. -/
theorem c10_positive_total (lines : List (List Char)) (node : List Char) (v : ℚ)
    (h : (node, v) ∈ avgLatencyByNode lines) :
    ∃ acc : NodeAcc, (node, acc) ∈ avgLatencyStats lines ∧ 0 < acc.total ∧
      v = acc.weightedSum / acc.total := by
  unfold avgLatencyByNode at h
  rw [List.mem_filterMap] at h
  obtain ⟨⟨n0, a0⟩, hp, he⟩ := h
  by_cases hpos : 0 < a0.total
  · rw [if_pos hpos] at he
    simp only [Option.some.injEq, Prod.mk.injEq] at he
    obtain ⟨h1, h2⟩ := he
    subst h1
    exact ⟨a0, hp, hpos, h2.symm⟩
  · rw [if_neg hpos] at he
    exact absurd he (by simp)

/-- C10 witness: on a concrete log line the node selma is reported with value
2, and the theorem yields its accumulator with strictly positive total. -/
theorem c10_positive_total_witness :
    ∃ acc : NodeAcc,
      ("selma".toList, acc) ∈
        avgLatencyStats ["all_handlers/selma b c d e f g 10 i j k 2.0".toList] ∧
      0 < acc.total ∧ (2 : ℚ) = acc.weightedSum / acc.total :=
  c10_positive_total ["all_handlers/selma b c d e f g 10 i j k 2.0".toList]
    ("selma".toList) 2 (by with_unfolding_all decide)

end UnipeptUtilities
